import Mathlib

/-!
Verification of the Atlassian-markup → Markdown transpiler core
(`src/atlassian_markup_transpiler.rs` of `refrences-lsp`).

The Rust code is shallowly embedded: borrowed string slices become `String`
(or `List Char` inside the parsers), chumsky parser combinators become
explicit PEG-style functions `List Char → Option (result × List Char)`
(greedy repetition, ordered choice, no backtracking past a committed
sequence — chumsky's semantics), and a Rust `panic!` / `todo!` /
`.unwrap()` on `Err` is modelled as `none` of an `Option`-valued result.
-/

/-- Embeds `enum AdmotionKind` (sic — the source spells it this way). -/
inductive AdmotionKind where
  | Info
  | Tip
  | Warning
  | Note
deriving DecidableEq, Repr

/-- Embeds `enum MarkUpNode<'a>`; the borrowed `&'a str` slices become `String`. -/
inductive MarkUpNode where
  | PlainText (content : String)
  | Heading1 (content : String)
  | Heading2 (content : String)
  | Heading3 (content : String)
  | Heading4 (content : String)
  | Heading5 (content : String)
  | Heading6 (content : String)
  | CodeBlock (language : Option String) (content : String)
  | Admotion (kind : AdmotionKind) (title : Option String) (show_icon : Bool)
      (content : String)
deriving DecidableEq, Repr

/-- Embeds `MarkUpNode::to_markdown_string`. The `Admotion` arm of the source
is `todo!("Output admition markdown")`, a panic; the panic is modelled as
`none`, every other arm as `some` of the formatted string. -/
def MarkUpNode.to_markdown_string : MarkUpNode → Option String
  | .PlainText content => some (content ++ "\n")
  | .Heading1 content => some ("# " ++ content ++ "\n")
  | .Heading2 content => some ("## " ++ content ++ "\n")
  | .Heading3 content => some ("### " ++ content ++ "\n")
  | .Heading4 content => some ("#### " ++ content ++ "\n")
  | .Heading5 content => some ("##### " ++ content ++ "\n")
  | .Heading6 content => some ("###### " ++ content ++ "\n")
  | .CodeBlock language content =>
      some ("```" ++ (match language with | some lang => lang | none => "") ++
        "\n" ++ content ++ "\n```")
  | .Admotion _ _ _ _ => none

/-- Embeds `MarkUpNode::push_content_onto_string`: the sequence of
`target.push_str(...)` calls on each arm, then the unconditional
`target.push_str("\n")` after the `match`. -/
def MarkUpNode.push_content_onto_string (node : MarkUpNode) (target : String) :
    String :=
  (match node with
   | .PlainText content => target ++ content
   | .Heading1 content => target ++ "# " ++ content
   | .Heading2 content => target ++ "## " ++ content
   | .Heading3 content => target ++ "### " ++ content
   | .Heading4 content => target ++ "#### " ++ content
   | .Heading5 content => target ++ "##### " ++ content
   | .Heading6 content => target ++ "###### " ++ content
   | .CodeBlock language content =>
       let t1 := target ++ "```"
       let t2 := match language with
         | some lang => t1 ++ lang
         | none => t1
       t2 ++ "\n" ++ content ++ "```"
   | .Admotion kind title _ content =>
       let t1 := target ++ (match kind with
         | .Info => "> [!INFO]"
         | .Tip => "> [!TIP]"
         | .Warning => "> [!WARNING]"
         | .Note => "> [!NOTE]")
       let t2 := match title with
         | some t => t1 ++ "**" ++ t ++ "**"
         | none => t1
       t2 ++ content) ++ "\n"

/-- Embeds `heading_ast_node_from_count`: the `panic!("Illegal")` arm for a
count outside `1..6` is modelled as `none`. -/
def heading_ast_node_from_count : Nat → Option (String → MarkUpNode)
  | 1 => some MarkUpNode.Heading1
  | 2 => some MarkUpNode.Heading2
  | 3 => some MarkUpNode.Heading3
  | 4 => some MarkUpNode.Heading4
  | 5 => some MarkUpNode.Heading5
  | 6 => some MarkUpNode.Heading6
  | _ => none

/-- `one_of(" \t")` — the inline-whitespace character class of the heading
grammar. -/
def isInlineWs (c : Char) : Bool := c == ' ' || c == '\t'

/-- Embeds `build_atlassian_markup_heading_parser` (the name is adjusted):
`just("h")`, `one_of("123456")` mapped through `to_digit`, `just(".")`,
`one_of(" \t").repeated()`, then `none_of("\n").repeated().to_slice()`
followed by `just("\n")`; the node is built by `heading_ast_node_from_count`.
Returns the node and the unconsumed input, `none` on mismatch. -/
def parseHeading (input : List Char) : Option (MarkUpNode × List Char) :=
  match input with
  | 'h' :: d :: '.' :: rest =>
      if d = '1' ∨ d = '2' ∨ d = '3' ∨ d = '4' ∨ d = '5' ∨ d = '6' then
        match heading_ast_node_from_count (d.toNat - '0'.toNat) with
        | some mkNode =>
            let afterWs := rest.dropWhile isInlineWs
            let text := afterWs.takeWhile (fun c => !(c == '\n'))
            match afterWs.dropWhile (fun c => !(c == '\n')) with
            | '\n' :: rest2 => some (mkNode (String.mk text), rest2)
            | _ => none
        | none => none
      else none
  | _ => none

/-- Embeds the driver `build_atlassian_markup_parser`
(`heading.repeated().collect()`): greedy repetition of the heading grammar
only — no other block grammar is tried.  `fuel` bounds the recursion; each
successful heading consumes at least one character, so `input.length + 1`
fuel is always enough. -/
def parseNodes : Nat → List Char → List MarkUpNode × List Char
  | 0, input => ([], input)
  | fuel + 1, input =>
      match parseHeading input with
      | some (node, rest) =>
          let p := parseNodes fuel rest
          (node :: p.1, p.2)
      | none => ([], input)

/-- `Parser::parse` of the driver: the repetition, then the implicit
end-of-input requirement (left-over input is a parse error). -/
def parseDocument (s : String) : Option (List MarkUpNode) :=
  match parseNodes (s.data.length + 1) s.data with
  | (nodes, []) => some nodes
  | _ => none

/-- The fold of `transpile_atlassian_markup_to_markdown`:
`acc + node.to_markdown_string().as_str()` over the node list; a panicking
`to_markdown_string` (the `Admotion` arm) makes the whole fold `none`. -/
def renderFold : String → List MarkUpNode → Option String
  | acc, [] => some acc
  | acc, node :: rest =>
      match node.to_markdown_string with
      | some s => renderFold (acc ++ s) rest
      | none => none

/-- Embeds `transpile_atlassian_markup_to_markdown`:
`parse(..).unwrap()` (the `unwrap` panic on a parse error is `none`),
then the rendering fold. -/
def transpile_atlassian_markup_to_markdown (s : String) : Option String :=
  match parseDocument s with
  | some nodes => renderFold "" nodes
  | none => none

/-- Embeds `enum CodeBlockOption<'a>`; `u64` becomes `Nat` (the parser
checks the `u64` range explicitly where the source's `from_str::<u64>`
would overflow). -/
inductive CodeBlockOption where
  | Title (t : String)
  | LineNumbers (b : Bool)
  | Language (l : String)
  | FirstLine (n : Nat)
  | Collapse (b : Bool)
deriving DecidableEq, Repr

/-- `true` of a `Language` option, used to state first-match-wins. -/
def CodeBlockOption.isLanguage : CodeBlockOption → Bool
  | .Language _ => true
  | _ => false

/-- `just(pat)`: expect `pat` as a literal prefix, return the rest. -/
def expectS : List Char → List Char → Option (List Char)
  | [], input => some input
  | c :: cs, input =>
      match input with
      | d :: ds => if d = c then expectS cs ds else none
      | [] => none

/-- `just("true").or(just("false")).from_str::<bool>().unwrapped()`. -/
def parseBoolTok (input : List Char) : Option (Bool × List Char) :=
  match expectS (("true").data) input with
  | some rest => some (true, rest)
  | none =>
      match expectS (("false").data) input with
      | some rest => some (false, rest)
      | none => none

/-- `text::ident()`: an identifier-start character then identifier-continue
characters (ASCII reading of the source's character classes). -/
def parseIdent (input : List Char) : Option (String × List Char) :=
  match input with
  | c :: rest =>
      if c.isAlpha || c == '_' then
        let tail := rest.takeWhile (fun x => x.isAlphanum || x == '_')
        some (String.mk (c :: tail), rest.dropWhile (fun x => x.isAlphanum || x == '_'))
      else none
  | [] => none

/-- `digits(10).to_slice().from_str::<u64>().unwrapped()`: one or more
decimal digits; a value past the `u64` range (where `unwrapped` would
panic) is `none`. -/
def parseDigitsU64 (input : List Char) : Option (Nat × List Char) :=
  match input with
  | c :: _ =>
      if c.isDigit then
        let ds := input.takeWhile Char.isDigit
        let v := ds.foldl (fun acc d => acc * 10 + (d.toNat - '0'.toNat)) 0
        if v < 2 ^ 64 then some (v, input.dropWhile Char.isDigit) else none
      else none
  | [] => none

/-- The `choice((...))` of the code-block option grammar, alternatives in
source order.  Note the `title=` value is `none_of("|")` — it stops only at
`|`, not at the closing brace. -/
def parseCodeBlockOption (input : List Char) : Option (CodeBlockOption × List Char) :=
  match expectS (("title=").data) input with
  | some rest =>
      some (.Title (String.mk (rest.takeWhile (fun c => !(c == '|')))),
        rest.dropWhile (fun c => !(c == '|')))
  | none =>
  match expectS (("linenumbers=").data) input with
  | some rest =>
      match parseBoolTok rest with
      | some (b, r) => some (.LineNumbers b, r)
      | none => none
  | none =>
  match expectS (("language=").data) input with
  | some rest =>
      match parseIdent rest with
      | some (l, r) => some (.Language l, r)
      | none => none
  | none =>
  match expectS (("firstline=").data) input with
  | some rest =>
      match parseDigitsU64 rest with
      | some (n, r) => some (.FirstLine n, r)
      | none => none
  | none =>
  match expectS (("collapse=").data) input with
  | some rest =>
      match parseBoolTok rest with
      | some (b, r) => some (.Collapse b, r)
      | none => none
  | none => none

/-- The tail loop of `separated_by(just("|"))`: a separator followed by a
further option, the separator rewound when no option follows. -/
def parseCodeBlockOptionsMore : Nat → List Char → List CodeBlockOption × List Char
  | 0, input => ([], input)
  | fuel + 1, input =>
      match input with
      | '|' :: rest =>
          match parseCodeBlockOption rest with
          | some (o, rest2) =>
              let p := parseCodeBlockOptionsMore fuel rest2
              (o :: p.1, p.2)
          | none => ([], input)
      | _ => ([], input)

/-- `choice(...).separated_by(just("|")).collect()`: zero or more options. -/
def parseCodeBlockOptions (input : List Char) : List CodeBlockOption × List Char :=
  match parseCodeBlockOption input with
  | some (o, rest) =>
      let p := parseCodeBlockOptionsMore rest.length rest
      (o :: p.1, p.2)
  | none => ([], input)

/-- `arguments_parser`: `just(":")` then the separated option list. -/
def parseCodeBlockArgs (input : List Char) : Option (List CodeBlockOption × List Char) :=
  match input with
  | ':' :: rest => some (parseCodeBlockOptions rest)
  | _ => none

/-- The closing tag literal of a code block. -/
def codeTag : List Char := ("\x7bcode\x7d").data

/-- `any().and_is(just("\x7bcode\x7d").not()).repeated().to_slice()`: the
characters before the first position where the closing tag is a prefix. -/
def takeUntilCodeTag : List Char → List Char × List Char
  | [] => ([], [])
  | c :: rest =>
      if (c :: rest).take codeTag.length = codeTag then ([], c :: rest)
      else
        let p := takeUntilCodeTag rest
        (c :: p.1, p.2)

/-- `padded()`'s whitespace skipping. -/
def dropWs (l : List Char) : List Char := l.dropWhile Char.isWhitespace

/-- The `find_map` projecting `Language` out of the option list and the
`.map(..).flatten()` over the optional list — the fold of the `map` closure
of `build_code_block_parser` (lines 199–209). -/
def codeBlockLanguage (opts : Option (List CodeBlockOption)) : Option String :=
  (opts.map (fun vs => vs.findSome? (fun f =>
    match f with
    | .Language lang => some lang
    | _ => none))).join

/-- The node built by the `map` closure of `build_code_block_parser`. -/
def codeBlockNodeOfParts (opts : Option (List CodeBlockOption))
    (content : String) : MarkUpNode :=
  .CodeBlock (codeBlockLanguage opts) content

/-- Embeds `build_code_block_parser` (the name is adjusted): `just("\x7bcode")`,
the optional argument list, `just("\x7d").padded()`, the body up to the
closing tag, `just("\x7bcode\x7d").padded()`. -/
def parseCodeBlock (input : List Char) : Option (MarkUpNode × List Char) :=
  match expectS (("\x7bcode").data) input with
  | none => none
  | some r1 =>
      let argsRes := match parseCodeBlockArgs r1 with
        | some (os, r) => (some os, r)
        | none => (none, r1)
      match dropWs argsRes.2 with
      | '\x7d' :: r3 =>
          let bodyRes := takeUntilCodeTag (dropWs r3)
          match expectS codeTag (dropWs bodyRes.2) with
          | some r6 => some (codeBlockNodeOfParts argsRes.1 (String.mk bodyRes.1), dropWs r6)
          | none => none
      | _ => none

/-- Embeds `enum AdmotionOption<'a>`. -/
inductive AdmotionOption where
  | Title (t : String)
  | ShowIcon (b : Bool)
deriving DecidableEq, Repr

/-- `true` of a `Title` option, used to state first-match-wins. -/
def AdmotionOption.isTitle : AdmotionOption → Bool
  | .Title _ => true
  | _ => false

/-- `true` of a `ShowIcon` option. -/
def AdmotionOption.isShowIcon : AdmotionOption → Bool
  | .ShowIcon _ => true
  | _ => false

/-- The `title` fold of `build_admotion_parser`'s `map` closure:
`ops.as_ref().map(|v| v.iter().find_map(..Title..)).flatten()`. -/
def admotionTitle (ops : Option (List AdmotionOption)) : Option String :=
  (ops.map (fun vs => vs.findSome? (fun x =>
    match x with
    | .Title t => some t
    | _ => none))).join

/-- The `show_icon` fold of `build_admotion_parser`'s `map` closure:
the `ShowIcon` `find_map`, flattened, `.unwrap_or(true)`. -/
def admotionShowIcon (ops : Option (List AdmotionOption)) : Bool :=
  ((ops.map (fun vs => vs.findSome? (fun x =>
    match x with
    | .ShowIcon v => some v
    | _ => none))).join).getD true

/-- The node built by the `map` closure of `build_admotion_parser`
(lines 247–270). -/
def admotionNodeOfParts (kind : AdmotionKind) (ops : Option (List AdmotionOption))
    (content : String) : MarkUpNode :=
  .Admotion kind (admotionTitle ops) (admotionShowIcon ops) content

/-- The uppercase kind keyword appearing in the rendered callout marker. -/
def AdmotionKind.upperKeyword : AdmotionKind → String
  | .Info => "INFO"
  | .Tip => "TIP"
  | .Warning => "WARNING"
  | .Note => "NOTE"

/-! ## General helper lemmas (strings and lists) -/

theorem strExt {a b : String} (h : a.data = b.data) : a = b := by
  cases a; cases b; exact congrArg String.mk h

theorem strDataAppend (a b : String) : (a ++ b).data = a.data ++ b.data := by
  cases a; cases b; rfl

theorem strDataMk (l : List Char) : (String.mk l).data = l := rfl

theorem strAppendAssoc (a b c : String) : a ++ b ++ c = a ++ (b ++ c) := by
  apply strExt
  simp [strDataAppend]

theorem strNilAppend (s : String) : "" ++ s = s := by
  apply strExt
  simp [strDataAppend, strDataMk]

theorem strAppendNil (s : String) : s ++ "" = s := by
  apply strExt
  simp [strDataAppend, strDataMk]

theorem dropWhileHeadFalse (p : Char → Bool) :
    ∀ l : List Char, (∀ c, l.head? = some c → p c = false) → l.dropWhile p = l
  | [], _ => rfl
  | c :: t, h => by
    have hc := h c rfl
    simp [List.dropWhile_cons, hc]

theorem takeWhileAllAppend (p : Char → Bool) (c : Char) (hc : p c = false) :
    ∀ l : List Char, (∀ x ∈ l, p x = true) →
      (l ++ [c]).takeWhile p = l ∧ (l ++ [c]).dropWhile p = [c]
  | [], _ => by simp [List.takeWhile_cons, List.dropWhile_cons, hc]
  | x :: t, h => by
    have hx : p x = true := h x (by simp)
    have ih := takeWhileAllAppend p c hc t (fun y hy => h y (by simp [hy]))
    simp [List.takeWhile_cons, List.dropWhile_cons, hx, ih.1, ih.2]

theorem findSomeAppendNone {α β : Type} (f : α → Option β) :
    ∀ pre rest : List α, (∀ o ∈ pre, f o = none) →
      (pre ++ rest).findSome? f = rest.findSome? f
  | [], _, _ => rfl
  | o :: t, rest, h => by
    have ho := h o (by simp)
    have ih := findSomeAppendNone f t rest (fun y hy => h y (by simp [hy]))
    simp [List.findSome?_cons, ho, ih]

theorem parseNodesNil (fuel : Nat) : parseNodes fuel [] = ([], []) := by
  cases fuel <;> simp [parseNodes, parseHeading]

theorem parseNodesOne (fuel : Nat) (input : List Char) (node : MarkUpNode)
    (h : parseHeading input = some (node, [])) :
    parseNodes (fuel + 1) input = ([node], []) := by
  simp [parseNodes, h, parseNodesNil]

/-! ## Claim theorems -/

/-- C1 (code_bug evidence): the whole-document driver is
`heading.repeated().collect()` only — it never tries the code-block or
admonition grammars and has no plain-text fallback.  A document consisting
of a single well-formed code block (which `parseCodeBlock` itself accepts,
second conjunct) makes the whole transpile call fail — `none` models the
`.unwrap()` panic — and so does a single plain-text line, instead of the
claimed CodeBlock/PlainText nodes. -/
theorem c1_driver_only_headings :
    transpile_atlassian_markup_to_markdown ("\x7bcode\x7d\nx\n\x7bcode\x7d") = none
    ∧ parseCodeBlock (("\x7bcode\x7d\nx\n\x7bcode\x7d").data)
        = some (MarkUpNode.CodeBlock none ("x\n"), [])
    ∧ transpile_atlassian_markup_to_markdown ("x\n") = none := by
  decide

/-- C2 (code_bug evidence): on the spec's own example `"\x7bcode\x7d\nbody"`
(no closing tag) the block grammar fails (first conjunct) and the transpile
call does not return a structured error — the source calls
`parse(..).unwrap()` on a `String`-returning function, a panic, modelled as
`none` (second conjunct).  No error type exists in the module at all. -/
theorem c2_unterminated_block_panics :
    parseCodeBlock (("\x7bcode\x7d\nbody").data) = none
    ∧ transpile_atlassian_markup_to_markdown ("\x7bcode\x7d\nbody") = none := by
  decide

/-- C3 (confirmed): for every Admonition node, whatever its kind, title,
icon flag and content, `MarkUpNode.to_markdown_string` — the renderer the
transpile driver invokes — hits the `todo!` panic (modelled `none`), and so
does the rendering fold of the driver as soon as such a node appears;
`push_content_onto_string` is the only renderer with a defined admonition
path. -/
theorem c3_admonition_render_panics :
    (∀ (kind : AdmotionKind) (title : Option String) (icon : Bool)
        (content : String),
        (MarkUpNode.Admotion kind title icon content).to_markdown_string = none)
    ∧ (∀ (kind : AdmotionKind) (title : Option String) (icon : Bool)
        (content acc : String) (rest : List MarkUpNode),
        renderFold acc (MarkUpNode.Admotion kind title icon content :: rest)
          = none) := by
  constructor
  · intro kind title icon content
    rfl
  · intro kind title icon content acc rest
    rfl

/-- C6 (code_bug evidence): the code-block `title=` value is
`none_of("|")` — it stops only at `|`, not at the closing brace, so on
`"\x7bcode:title=T\x7dx\x7bcode\x7d"` the title swallows the closing brace
and the whole grammar fails (first conjunct), instead of the claimed parse
with title `T`.  With a `|`-separated option after the title the same
grammar succeeds (second conjunct), confirming the failure is the `title=`
value class. -/
theorem c6_title_swallows_closing_brace :
    parseCodeBlock (("\x7bcode:title=T\x7dx\x7bcode\x7d").data) = none
    ∧ parseCodeBlock (("\x7bcode:title=T|language=py\x7dx\x7bcode\x7d").data)
        = some (MarkUpNode.CodeBlock (some ("py")) ("x"), []) := by
  decide

/-- C10 (counterexample): the claim says the count-to-node function never
panics for any input; at count 7 the source hits `panic!("Illegal")`,
modelled as `none` — there is no `IllegalHeadingLevel` error value. -/
theorem c10_counterexample : heading_ast_node_from_count 7 = none := rfl

/-- C10 (amended): `heading_ast_node_from_count` panics (modelled: yields no
constructor) for every count outside `1..6`, and under the heading grammar's
precondition — the parsed digit is one of `1..6` — it yields a heading
constructor, so the illegal branch is unreachable from the grammar. -/
theorem c10_illegal_heading_level :
    (∀ n : Nat, 1 ≤ n → n ≤ 6 → (heading_ast_node_from_count n).isSome = true)
    ∧ (∀ n : Nat, n = 0 ∨ 7 ≤ n → heading_ast_node_from_count n = none) := by
  constructor
  · intro n h1 h6
    interval_cases n <;> rfl
  · intro n h
    rcases h with rfl | h7
    · rfl
    · obtain ⟨k, rfl⟩ : ∃ k, n = k + 7 := ⟨n - 7, by omega⟩
      rfl

/-- C10 witness: the theorem applied at count 3. -/
theorem c10_witness : (heading_ast_node_from_count 3).isSome = true :=
  c10_illegal_heading_level.1 3 (by decide) (by decide)

theorem strDataEmpty : ("" : String).data = [] := rfl

/-- Spec of the heading grammar on a well-formed heading line, for any digit
in `123456` and any line body with no newline and no leading space/tab. -/
theorem parseHeadingSpec (d : Char) (mkNode : String → MarkUpNode)
    (hdig : d = '1' ∨ d = '2' ∨ d = '3' ∨ d = '4' ∨ d = '5' ∨ d = '6')
    (hmk : heading_ast_node_from_count (d.toNat - '0'.toNat) = some mkNode)
    (L : List Char) (hL : ∀ c ∈ L, (c == '\n') = false)
    (hL0 : ∀ c, L.head? = some c → isInlineWs c = false) :
    parseHeading ('h' :: d :: '.' :: ' ' :: (L ++ ['\n']))
      = some (mkNode (String.mk L), []) := by
  have hws : (L ++ ['\n']).dropWhile isInlineWs = L ++ ['\n'] := by
    apply dropWhileHeadFalse
    intro c hc
    cases L with
    | nil =>
        simp at hc
        subst hc
        rfl
    | cons x t =>
        simp at hc
        subst hc
        exact hL0 x rfl
  have htw := takeWhileAllAppend (fun c => !(c == '\n')) '\n' (by simp) L
    (fun x hx => by simp [hL x hx])
  have hws2 : List.dropWhile isInlineWs (' ' :: (L ++ ['\n'])) = L ++ ['\n'] := hws
  rcases hdig with rfl | rfl | rfl | rfl | rfl | rfl <;>
  · simp only [parseHeading]
    rw [if_pos (by simp), hmk, hws2, htw.2, htw.1]
    rfl

/-- C4 (counterexample): the claim quantifies over every newline-free text
`T`; at `T = " x"` (leading space) the heading grammar's
`one_of(" \t").repeated()` swallows the leading space, so
`transpile("h1.  x\n")` is `"# x\n"`, not the claimed `"#  x\n"`. -/
theorem c4_counterexample :
    transpile_atlassian_markup_to_markdown ("h1.  x\n") ≠ some ("#  x\n")
    ∧ transpile_atlassian_markup_to_markdown ("h1.  x\n") = some ("# x\n") := by
  decide

/-- C4 (amended): for every level digit `N` in `1..6` and every text `T`
containing no newline and not starting with a space or tab,
`transpile("hN. T\n")` is `N` hash marks, a space, `T`, and a newline. -/
theorem c4_heading_transpile (d : Char)
    (hdig : d = '1' ∨ d = '2' ∨ d = '3' ∨ d = '4' ∨ d = '5' ∨ d = '6')
    (T : String)
    (hT : T.data.all (fun c => !(c == '\n')) = true)
    (hT0 : T.data.head?.all (fun c => !(isInlineWs c)) = true) :
    transpile_atlassian_markup_to_markdown
        (String.mk ('h' :: d :: '.' :: ' ' :: (T.data ++ ['\n'])))
      = some (String.mk (List.replicate (d.toNat - '0'.toNat) '#') ++ " " ++ T ++ "\n") := by
  obtain ⟨L⟩ := T
  rw [strDataMk] at hT hT0 ⊢
  have hL : ∀ c ∈ L, (c == '\n') = false := by
    intro c hc
    have h1 := List.all_eq_true.mp hT c hc
    simpa using h1
  have hL0 : ∀ c, L.head? = some c → isInlineWs c = false := by
    intro c hc
    rw [hc] at hT0
    simpa [Option.all] using hT0
  obtain ⟨mkNode, hmk⟩ :
      ∃ mk, heading_ast_node_from_count (d.toNat - '0'.toNat) = some mk := by
    rcases hdig with rfl | rfl | rfl | rfl | rfl | rfl <;> exact ⟨_, rfl⟩
  have hp := parseHeadingSpec d mkNode hdig hmk L hL hL0
  have hdoc : parseDocument (String.mk ('h' :: d :: '.' :: ' ' :: (L ++ ['\n'])))
      = some [mkNode (String.mk L)] := by
    unfold parseDocument
    rw [strDataMk, parseNodesOne _ _ _ hp]
  rcases hdig with rfl | rfl | rfl | rfl | rfl | rfl <;>
  · injection hmk with h
    subst h
    unfold transpile_atlassian_markup_to_markdown
    rw [hdoc]
    rfl

/-- C4 witness: the amended theorem applied at level 2 and text `abc`. -/
theorem c4_witness :
    transpile_atlassian_markup_to_markdown
        (String.mk ('h' :: '2' :: '.' :: ' ' :: (("abc").data ++ ['\n'])))
      = some (String.mk (List.replicate ('2'.toNat - '0'.toNat) '#') ++ " " ++ ("abc") ++ "\n") :=
  c4_heading_transpile '2' (by decide) ("abc") (by decide) (by decide)

/-- C5 (confirmed): the option lists are folded into the node fields with
`iter().find_map(..)` — the first occurrence of the matching option kind in
declaration order wins, every later occurrence of the same kind (here an
explicit second occurrence carrying `w`) is ignored, for the code block's
`language` and the admonition's `title` and `show_icon` alike. -/
theorem c5_first_match_wins :
    (∀ (pre mid post : List CodeBlockOption) (v w : String),
        pre.all (fun o => !(o.isLanguage)) = true →
        codeBlockLanguage
            (some (pre ++ CodeBlockOption.Language v ::
              mid ++ CodeBlockOption.Language w :: post)) = some v)
    ∧ (∀ (pre mid post : List AdmotionOption) (v w : String),
        pre.all (fun o => !(o.isTitle)) = true →
        admotionTitle
            (some (pre ++ AdmotionOption.Title v ::
              mid ++ AdmotionOption.Title w :: post)) = some v)
    ∧ (∀ (pre mid post : List AdmotionOption) (v w : Bool),
        pre.all (fun o => !(o.isShowIcon)) = true →
        admotionShowIcon
            (some (pre ++ AdmotionOption.ShowIcon v ::
              mid ++ AdmotionOption.ShowIcon w :: post)) = v) := by
  refine ⟨?_, ?_, ?_⟩
  · intro pre mid post v w hpre
    have hnone : ∀ o ∈ pre,
        (match o with
         | CodeBlockOption.Language lang => some lang
         | _ => none) = (none : Option String) := by
      intro o ho
      have := List.all_eq_true.mp hpre o ho
      cases o <;> simp_all [CodeBlockOption.isLanguage]
    simp [codeBlockLanguage, findSomeAppendNone _ pre _ hnone,
      List.findSome?_cons]
  · intro pre mid post v w hpre
    have hnone : ∀ o ∈ pre,
        (match o with
         | AdmotionOption.Title t => some t
         | _ => none) = (none : Option String) := by
      intro o ho
      have := List.all_eq_true.mp hpre o ho
      cases o <;> simp_all [AdmotionOption.isTitle]
    simp [admotionTitle, findSomeAppendNone _ pre _ hnone,
      List.findSome?_cons]
  · intro pre mid post v w hpre
    have hnone : ∀ o ∈ pre,
        (match o with
         | AdmotionOption.ShowIcon b => some b
         | _ => none) = (none : Option Bool) := by
      intro o ho
      have := List.all_eq_true.mp hpre o ho
      cases o <;> simp_all [AdmotionOption.isShowIcon]
    simp [admotionShowIcon, findSomeAppendNone _ pre _ hnone,
      List.findSome?_cons]

/-- C5 witness: the language fold applied where a `title` option precedes
two `language` options — the first language wins. -/
theorem c5_witness :
    codeBlockLanguage
        (some ([CodeBlockOption.Title ("t")] ++ CodeBlockOption.Language ("py") ::
          [] ++ CodeBlockOption.Language ("rb") :: [])) = some ("py") :=
  c5_first_match_wins.1 [CodeBlockOption.Title ("t")] [] [] ("py") ("rb") (by decide)

/-- C7 (confirmed): `push_content_onto_string` renders a CodeBlock as three
backticks, the language tag immediately (or nothing), a newline, the
verbatim content, then three backticks with no newline before them and none
after them from the per-node render; and, uniformly for every node kind,
the wrapper appends exactly one newline after the per-node body. -/
theorem c7_codeblock_render :
    (∀ (language : Option String) (content target : String),
        MarkUpNode.push_content_onto_string
            (MarkUpNode.CodeBlock language content) target
          = target ++ ("```" ++
              (match language with | some lang => lang | none => "") ++
              "\n" ++ content ++ "```" ++ "\n"))
    ∧ (∀ node : MarkUpNode, ∃ body : String, ∀ target : String,
        MarkUpNode.push_content_onto_string node target
          = target ++ (body ++ "\n")) := by
  constructor
  · intro language content target
    cases language <;>
      simp [MarkUpNode.push_content_onto_string, strAppendAssoc, strAppendNil]
  · intro node
    cases node with
    | PlainText c =>
        exact ⟨c, fun t => by
          simp [MarkUpNode.push_content_onto_string, strAppendAssoc]⟩
    | Heading1 c =>
        exact ⟨"# " ++ c, fun t => by
          simp [MarkUpNode.push_content_onto_string, strAppendAssoc]⟩
    | Heading2 c =>
        exact ⟨"## " ++ c, fun t => by
          simp [MarkUpNode.push_content_onto_string, strAppendAssoc]⟩
    | Heading3 c =>
        exact ⟨"### " ++ c, fun t => by
          simp [MarkUpNode.push_content_onto_string, strAppendAssoc]⟩
    | Heading4 c =>
        exact ⟨"#### " ++ c, fun t => by
          simp [MarkUpNode.push_content_onto_string, strAppendAssoc]⟩
    | Heading5 c =>
        exact ⟨"##### " ++ c, fun t => by
          simp [MarkUpNode.push_content_onto_string, strAppendAssoc]⟩
    | Heading6 c =>
        exact ⟨"###### " ++ c, fun t => by
          simp [MarkUpNode.push_content_onto_string, strAppendAssoc]⟩
    | CodeBlock language c =>
        refine ⟨"```" ++
          (match language with | some lang => lang | none => "") ++
          "\n" ++ c ++ "```", fun t => ?_⟩
        cases language <;>
          simp [MarkUpNode.push_content_onto_string, strAppendAssoc, strAppendNil]
    | Admotion kind title icon c =>
        refine ⟨(match kind with
          | AdmotionKind.Info => "> [!INFO]"
          | AdmotionKind.Tip => "> [!TIP]"
          | AdmotionKind.Warning => "> [!WARNING]"
          | AdmotionKind.Note => "> [!NOTE]") ++
          (match title with | some t2 => "**" ++ t2 ++ "**" | none => "") ++ c,
          fun t => ?_⟩
        cases kind <;> cases title <;>
          simp only [MarkUpNode.push_content_onto_string, strAppendAssoc,
            strAppendNil]

/-- C8 (confirmed): `push_content_onto_string` renders an Admonition as the
callout marker with the uppercase kind keyword, the bold title immediately
after it when present (no intervening whitespace), the content immediately
after that, and only the wrapper's single final newline. -/
theorem c8_admonition_render (kind : AdmotionKind) (title : Option String)
    (icon : Bool) (content target : String) :
    MarkUpNode.push_content_onto_string
        (MarkUpNode.Admotion kind title icon content) target
      = target ++ ("> [!" ++ kind.upperKeyword ++ "]" ++
          (match title with | some t => "**" ++ t ++ "**" | none => "") ++
          content ++ "\n") := by
  cases kind <;> cases title <;>
    simp only [MarkUpNode.push_content_onto_string, AdmotionKind.upperKeyword,
      strAppendAssoc, strAppendNil,
      show ("> [!INFO]" : String) = "> [!" ++ ("INFO") ++ "]" by decide,
      show ("> [!TIP]" : String) = "> [!" ++ ("TIP") ++ "]" by decide,
      show ("> [!WARNING]" : String) = "> [!" ++ ("WARNING") ++ "]" by decide,
      show ("> [!NOTE]" : String) = "> [!" ++ ("NOTE") ++ "]" by decide]

/-- C9 (confirmed): rendering never looks at `show_icon` — the two renders
of nodes differing only in `show_icon` are definitionally the same string —
and the node built by the admonition grammar's fold has `show_icon = true`
whenever no `show_icon` option occurs in the (possibly absent) option
list. -/
theorem c9_show_icon_no_effect :
    (∀ (kind : AdmotionKind) (title : Option String) (content target : String)
        (i1 i2 : Bool),
        MarkUpNode.push_content_onto_string
            (MarkUpNode.Admotion kind title i1 content) target
          = MarkUpNode.push_content_onto_string
              (MarkUpNode.Admotion kind title i2 content) target)
    ∧ (∀ (kind : AdmotionKind) (content : String)
        (ops : Option (List AdmotionOption)),
        (ops.all fun l => l.all fun o => !(o.isShowIcon)) = true →
        admotionNodeOfParts kind ops content
          = MarkUpNode.Admotion kind (admotionTitle ops) true content) := by
  constructor
  · intro kind title content target i1 i2
    rfl
  · intro kind content ops hops
    unfold admotionNodeOfParts
    congr 1
    cases ops with
    | none => rfl
    | some l =>
        simp only [Option.all] at hops
        have hnone : ∀ o ∈ l,
            (match o with
             | AdmotionOption.ShowIcon v => some v
             | _ => none) = (none : Option Bool) := by
          intro o ho
          have := List.all_eq_true.mp hops o ho
          cases o <;> simp_all [AdmotionOption.isShowIcon]
        have hfs : l.findSome? (fun x =>
            match x with
            | AdmotionOption.ShowIcon v => some v
            | _ => none) = none := by
          have h2 := findSomeAppendNone _ l ([] : List AdmotionOption) hnone
          simpa using h2
        simp [admotionShowIcon, hfs]

/-- C9 witness: the fold applied to an option list with a title but no
`show_icon` option — the node's `show_icon` is `true`. -/
theorem c9_witness :
    admotionNodeOfParts AdmotionKind.Info (some [AdmotionOption.Title ("t")]) ("c")
      = MarkUpNode.Admotion AdmotionKind.Info
          (admotionTitle (some [AdmotionOption.Title ("t")])) true ("c") :=
  c9_show_icon_no_effect.2 AdmotionKind.Info ("c")
    (some [AdmotionOption.Title ("t")]) (by decide)
